import Mathlib

/-!
Verification of the `usbd` USB device framework (MicroPython) against its
natural-language specification.  The Python sources are shallowly embedded:
byte buffers become `List Nat` (each element a byte value), Python dicts
(which preserve insertion order) become association lists, `struct.pack`
calls become explicit little-endian byte lists, and the singleton
`_USBDevice` object's mutable attributes become an explicit record that is
threaded through the operations.  Where a Python method invokes a
user-supplied callback (`handle_open`, `handle_reset`, transfer completion
callbacks), the embedding returns the list of invocations together with the
device state visible to the callback at the moment it runs, so that
temporal claims ("X has happened before callback Y fires") become ordinary
statements about those recorded states.
-/

/-! ## Descriptor builder (src/usbd/utils.py, class Descriptor) -/

/-- State of `utils.Descriptor`: an optional backing buffer `b` (None for the
dry run used to size the configuration descriptor) and the write offset `o`. -/
structure Descr where
  b : Option (List Nat)
  o : Nat
deriving Repr, DecidableEq

/-- Python truthiness of `self.b`: `None` and the empty bytearray are falsy. -/
def bufTruthy : Option (List Nat) → Bool
  | none => false
  | some l => !l.isEmpty

/-- Bytearray slice assignment `buf[offs : offs + len(data)] = data`.  For
in-bounds writes this replaces the slice; it also matches Python semantics for
`offs` past the end (the data is appended). -/
def writeAt (buf : List Nat) (offs : Nat) (data : List Nat) : List Nat :=
  buf.take offs ++ data ++ buf.drop (offs + data.length)

/-- `struct.pack("B", v)`: one byte. -/
def packB (v : Nat) : List Nat := [v % 256]

/-- `struct.pack("<H", v)`: two bytes, little endian. -/
def packLE16 (v : Nat) : List Nat := [v % 256, v / 256 % 256]

/-- `Descriptor.pack_into(fmt, offs, *args)`: `data` is the packed byte string
(`struct.calcsize(fmt) = data.length`).  Writes only when the buffer is truthy;
the offset always becomes `max o (offs + len)`. -/
def Descr.packInto (d : Descr) (offs : Nat) (data : List Nat) : Descr :=
  { b := if bufTruthy d.b then d.b.map (fun buf => writeAt buf offs data) else d.b
    o := max d.o (offs + data.length) }

/-- `Descriptor.append(a)`: write at the current offset (when the buffer is
truthy) and advance the offset by the data length unconditionally. -/
def Descr.append (d : Descr) (a : List Nat) : Descr :=
  { b := if bufTruthy d.b then d.b.map (fun buf => writeAt buf d.o a) else d.b
    o := d.o + a.length }

/-- One recorded call on a `Descriptor`.  `packOp` packs at the current offset
(`Descriptor.pack`), `packIntoOp` at an explicit offset, `appendOp` appends raw
bytes. -/
inductive Op where
  | packOp (data : List Nat)
  | packIntoOp (offs : Nat) (data : List Nat)
  | appendOp (data : List Nat)
deriving Repr, DecidableEq

/-- Execute one builder call. -/
def Descr.runOp (d : Descr) : Op → Descr
  | .packOp data => d.packInto d.o data
  | .packIntoOp offs data => d.packInto offs data
  | .appendOp data => d.append data

/-- Execute a list of builder calls in order. -/
def Descr.run (d : Descr) (ops : List Op) : Descr :=
  ops.foldl Descr.runOp d

/-- Offset evolution of one builder call, independent of any buffer. -/
def opOff (o : Nat) : Op → Nat
  | .packOp data => max o (o + data.length)
  | .packIntoOp offs data => max o (offs + data.length)
  | .appendOp data => o + data.length

/-- Offset evolution of a call list. -/
def runOff (o : Nat) (ops : List Op) : Nat :=
  ops.foldl opOff o

/-! Convenience builders (`Descriptor.interface`, `Descriptor.endpoint`,
`Descriptor.interface_assoc`): each is a `pack` of a fixed-layout byte list. -/

/-- Bytes packed by `Descriptor.interface` (format `"BBBBBBBBB"`, 9 bytes). -/
def interfaceBytes (bInterfaceNumber bNumEndpoints bInterfaceClass
    bInterfaceSubClass bInterfaceProtocol iInterface : Nat) : List Nat :=
  packB 9 ++ packB 4 ++ packB bInterfaceNumber ++ packB 0 ++
    packB bNumEndpoints ++ packB bInterfaceClass ++ packB bInterfaceSubClass ++
    packB bInterfaceProtocol ++ packB iInterface

/-- The `bmAttributes` argument of `Descriptor.endpoint` may be a string
naming a common endpoint type or a raw numeric value. -/
inductive EpAttr where
  | controlK
  | bulkK
  | interruptK
  | raw (n : Nat)
deriving Repr, DecidableEq

/-- Numeric encoding chosen by `Descriptor.endpoint` for its attribute arg. -/
def EpAttr.encode : EpAttr → Nat
  | .controlK => 0
  | .bulkK => 2
  | .interruptK => 3
  | .raw n => n

/-- Bytes packed by `Descriptor.endpoint` (format `"<BBBBHB"`, 7 bytes). -/
def endpointBytes (bEndpointAddress : Nat) (bmAttributes : EpAttr)
    (wMaxPacketSize bInterval : Nat) : List Nat :=
  packB 7 ++ packB 5 ++ packB bEndpointAddress ++ packB bmAttributes.encode ++
    packLE16 wMaxPacketSize ++ packB bInterval

/-- Bytes packed by `Descriptor.interface_assoc` (format `"<BBBBBBBB"`). -/
def interfaceAssocBytes (bFirstInterface bInterfaceCount bFunctionClass
    bFunctionSubClass bFunctionProtocol iFunction : Nat) : List Nat :=
  packB 8 ++ packB 0xB ++ packB bFirstInterface ++ packB bInterfaceCount ++
    packB bFunctionClass ++ packB bFunctionSubClass ++ packB bFunctionProtocol ++
    packB iFunction

/-- The `interface` convenience builder as an `Op`. -/
def Op.interfaceOp (num eps cls sub proto iItf : Nat) : Op :=
  .packOp (interfaceBytes num eps cls sub proto iItf)

/-- The `endpoint` convenience builder as an `Op`. -/
def Op.endpointOp (addr : Nat) (attrs : EpAttr) (wMax bInterval : Nat) : Op :=
  .packOp (endpointBytes addr attrs wMax bInterval)

/-! ## Descriptor building passes of `_USBDevice.init` (src/usbd/device.py)

`init` first runs every interface's `desc_cfg` against a `Descriptor(None)`
(the dry run), allocates `bytearray(desc.o)`, then replays the calls against
the real buffer and finally patches the standard configuration header at
offset 0 with `pack_into`.  An interface object's contribution is modelled as
the list of builder calls it makes (`desc_cfg` is required to make the same
calls on both passes). -/

/-- The shared call sequence of both passes: append the initial configuration
descriptor, then each interface's contribution in order. -/
def passOps (initialCfg : List Nat) (itfOps : List (List Op)) : List Op :=
  Op.appendOp initialCfg :: itfOps.flatten

/-- The dry-run pass: `Descriptor(None)` run over all contributions. -/
def dryPass (initialCfg : List Nat) (itfOps : List (List Op)) : Descr :=
  Descr.run ⟨none, 0⟩ (passOps initialCfg itfOps)

/-- The content pass: `Descriptor(bytearray(dry.o))` run over the same
contributions, then the configuration header patched in at offset 0. -/
def realPass (initialCfg : List Nat) (itfOps : List (List Op))
    (header : List Nat) : Descr :=
  Descr.run ⟨some (List.replicate (dryPass initialCfg itfOps).o 0), 0⟩
    (passOps initialCfg itfOps ++ [Op.packIntoOp 0 header])


/-! ### Lemmas for the two-pass sizing property -/

theorem Descr.runOp_o (d : Descr) (op : Op) : (d.runOp op).o = opOff d.o op := by
  cases op <;> simp [Descr.runOp, Descr.packInto, Descr.append, opOff]

theorem Descr.run_o (ops : List Op) : ∀ d : Descr, (d.run ops).o = runOff d.o ops := by
  induction ops with
  | nil => intro d; rfl
  | cons op rest ih =>
    intro d
    show ((d.runOp op).run rest).o = runOff (opOff d.o op) rest
    rw [ih, Descr.runOp_o]

theorem le_opOff (o : Nat) (op : Op) : o ≤ opOff o op := by
  cases op <;> (simp only [opOff]; omega)

theorem le_runOff (ops : List Op) : ∀ o : Nat, o ≤ runOff o ops := by
  induction ops with
  | nil => intro o; exact Nat.le_refl o
  | cons op rest ih =>
    intro o
    exact Nat.le_trans (le_opOff o op) (ih (opOff o op))

theorem writeAt_length (buf : List Nat) (offs : Nat) (data : List Nat)
    (h : offs + data.length ≤ buf.length) :
    (writeAt buf offs data).length = buf.length := by
  simp [writeAt]
  omega

theorem runOp_some_length (op : Op) (o : Nat) (buf : List Nat)
    (h : opOff o op ≤ buf.length) :
    ∃ buf', ((⟨some buf, o⟩ : Descr).runOp op).b = some buf' ∧
      buf'.length = buf.length := by
  cases op with
  | packOp data =>
    cases hbt : bufTruthy (some buf) with
    | false => exact ⟨buf, by simp [Descr.runOp, Descr.packInto, hbt], rfl⟩
    | true =>
      refine ⟨writeAt buf o data, by simp [Descr.runOp, Descr.packInto, hbt], ?_⟩
      exact writeAt_length buf o data (by simp only [opOff] at h; omega)
  | packIntoOp offs data =>
    cases hbt : bufTruthy (some buf) with
    | false => exact ⟨buf, by simp [Descr.runOp, Descr.packInto, hbt], rfl⟩
    | true =>
      refine ⟨writeAt buf offs data, by simp [Descr.runOp, Descr.packInto, hbt], ?_⟩
      exact writeAt_length buf offs data (by simp only [opOff] at h; omega)
  | appendOp data =>
    cases hbt : bufTruthy (some buf) with
    | false => exact ⟨buf, by simp [Descr.runOp, Descr.append, hbt], rfl⟩
    | true =>
      refine ⟨writeAt buf o data, by simp [Descr.runOp, Descr.append, hbt], ?_⟩
      exact writeAt_length buf o data (by simp only [opOff] at h; omega)

theorem run_preserves_length (ops : List Op) :
    ∀ (d : Descr) (buf : List Nat), d.b = some buf → runOff d.o ops ≤ buf.length →
      ∃ buf', (d.run ops).b = some buf' ∧ buf'.length = buf.length := by
  induction ops with
  | nil => intro d buf hb _; exact ⟨buf, hb, rfl⟩
  | cons op rest ih =>
    intro d buf hb hlen
    obtain ⟨db, o⟩ := d
    replace hb : db = some buf := hb
    subst hb
    have hstep : runOff o (op :: rest) = runOff (opOff o op) rest := rfl
    have hople : opOff o op ≤ buf.length :=
      Nat.le_trans (le_runOff rest (opOff o op)) (hstep ▸ hlen)
    obtain ⟨buf', hb', hlen'⟩ := runOp_some_length op o buf hople
    have hrest : runOff ((Descr.runOp ⟨some buf, o⟩ op).o) rest ≤ buf'.length := by
      rw [Descr.runOp_o, hlen']
      exact hstep ▸ hlen
    obtain ⟨buf'', hb'', hlen''⟩ := ih (Descr.runOp ⟨some buf, o⟩ op) buf' hb' hrest
    exact ⟨buf'', hb'', hlen'' ▸ hlen'⟩

/-- C1: for every set of interface contributions, in every order, the dry-run
descriptor pass (`Descriptor(None)`) and the real content pass over the same
contributions agree: the real pass's buffer has exactly the length computed by
the dry run's final offset, and the real pass's cursor ends at the same
offset, because every builder call advances the cursor identically whether or
not a backing buffer is present.  (`header` is the 9-byte standard
configuration header patched in at offset 0 at the end of the real pass; the
initial configuration descriptor prefix is at least that long.) -/
theorem descriptor_two_pass_length (initialCfg : List Nat) (itfOps : List (List Op))
    (header : List Nat) (hh : header.length ≤ initialCfg.length) :
    ((realPass initialCfg itfOps header).b.getD []).length = (dryPass initialCfg itfOps).o ∧
    (realPass initialCfg itfOps header).o = (dryPass initialCfg itfOps).o := by
  set L := (dryPass initialCfg itfOps).o with hL
  have hdry : L = runOff 0 (passOps initialCfg itfOps) := by
    rw [hL]; exact Descr.run_o (passOps initialCfg itfOps) ⟨none, 0⟩
  have hinit : initialCfg.length ≤ L := by
    rw [hdry]
    have h1 : runOff 0 (passOps initialCfg itfOps) =
        runOff (0 + initialCfg.length) itfOps.flatten := rfl
    rw [h1]
    have h2 := le_runOff itfOps.flatten (0 + initialCfg.length)
    omega
  have hfull : runOff 0 (passOps initialCfg itfOps ++ [Op.packIntoOp 0 header]) = L := by
    have hfold : runOff 0 (passOps initialCfg itfOps ++ [Op.packIntoOp 0 header]) =
        opOff (runOff 0 (passOps initialCfg itfOps)) (Op.packIntoOp 0 header) := by
      simp [runOff, List.foldl_append]
    rw [hfold, ← hdry]
    simp [opOff]
    omega
  constructor
  · obtain ⟨buf', hb', hlen'⟩ := run_preserves_length
      (passOps initialCfg itfOps ++ [Op.packIntoOp 0 header])
      ⟨some (List.replicate L 0), 0⟩ (List.replicate L 0) rfl
      (by simp [hfull])
    have : (realPass initialCfg itfOps header).b = some buf' := hb'
    rw [realPass, ← hL]
    rw [show (Descr.run ⟨some (List.replicate L 0), 0⟩
      (passOps initialCfg itfOps ++ [Op.packIntoOp 0 header])).b = some buf' from hb']
    simpa using hlen'
  · rw [realPass, ← hL]
    rw [Descr.run_o]
    exact hfull

/-- Witness for C1 at a concrete interface set: a 9-byte initial configuration
descriptor, one interface contributing an interface descriptor and an
interrupt endpoint descriptor, and a 9-byte header patch. -/
theorem descriptor_two_pass_length_witness :
    (List.replicate 9 1).length ≤ (List.replicate 9 0).length ∧
    ((realPass (List.replicate 9 0)
        [[Op.interfaceOp 0 1 255 0 0 0, Op.endpointOp 129 EpAttr.interruptK 8 8]]
        (List.replicate 9 1)).b.getD []).length =
      (dryPass (List.replicate 9 0)
        [[Op.interfaceOp 0 1 255 0 0 0, Op.endpointOp 129 EpAttr.interruptK 8 8]]).o :=
  ⟨by decide,
   (descriptor_two_pass_length (List.replicate 9 0)
      [[Op.interfaceOp 0 1 255 0 0 0, Op.endpointOp 129 EpAttr.interruptK 8 8]]
      (List.replicate 9 1) (by decide)).1⟩

/-! ## Interrupt-safe byte buffer (src/usbd/utils.py, class Buffer)

The buffer wraps a fixed bytearray `b` with `n` = end of readable data and
`w` = start of a pending write (`w = b.length` when no write is pending). -/

/-- State of `utils.Buffer`. -/
structure RingBuf where
  b : List Nat
  n : Nat
  w : Nat
deriving Repr, DecidableEq

/-- `Buffer.__init__(length)`. -/
def RingBuf.mkBuf (length : Nat) : RingBuf :=
  ⟨List.replicate length 0, 0, length⟩

/-- `Buffer.writable()`. -/
def RingBuf.writable (st : RingBuf) : Nat :=
  st.b.length - st.n

/-- `Buffer.readable()`. -/
def RingBuf.readable (st : RingBuf) : Nat :=
  st.n

/-- The slow-path loop of `finish_write`: while `nbytes > 0`, copy
`b[w]` to `b[n]` and advance both indices. -/
def shuffleWrite (b : List Nat) (n w : Nat) : Nat → List Nat × Nat × Nat
  | 0 => (b, n, w)
  | nbytes + 1 => shuffleWrite (b.set n (b.getD w 0)) (n + 1) (w + 1) nbytes

/-- `Buffer.finish_write(nbytes)`: fast path when no concurrent read moved
`n` away from `w`, else the byte-by-byte defragmentation loop; in both cases
`w` ends at the buffer length. -/
def RingBuf.finishWrite (st : RingBuf) (nbytes : Nat) : RingBuf :=
  if st.n = st.w then
    { st with n := st.n + nbytes, w := st.b.length }
  else
    let r := shuffleWrite st.b st.n st.w nbytes
    { b := r.1, n := r.2.1, w := r.1.length }

/-- `Buffer.write(w)`: `pend_write()` (which sets `w := n` and exposes
`b[n:]`), copy as much of the data as fits, then `finish_write` when anything
was copied.  Returns the new state and the count written. -/
def RingBuf.write (st : RingBuf) (data : List Nat) : RingBuf × Nat :=
  let st1 : RingBuf := { st with w := st.n }
  let toW := min data.length (st1.b.length - st1.w)
  if toW = 0 then (st1, 0)
  else
    let st2 : RingBuf := { st1 with b := writeAt st1.b st1.w (data.take toW) }
    (st2.finishWrite toW, toW)

/-- The defragmentation loop of `finish_read`: while `i < stop`, copy
`b[i + nbytes]` down to `b[i]`. -/
def shuffleRead (nbytes : Nat) (b : List Nat) (i stop : Nat) : List Nat :=
  if i < stop then shuffleRead nbytes (b.set i (b.getD (i + nbytes) 0)) (i + 1) stop
  else b
termination_by stop - i

/-- `Buffer.finish_read(nbytes)`: no-op for zero, else shrink `n` and shift
the remaining readable bytes down to index 0. -/
def RingBuf.finishRead (st : RingBuf) (nbytes : Nat) : RingBuf :=
  if nbytes = 0 then st
  else
    let n' := st.n - nbytes
    { st with b := shuffleRead nbytes st.b 0 n', n := n' }

/-- `Buffer.readinto(b)`: read from `pend_read()` (= `b[:n]`) into the
destination, then `finish_read` when anything was read.  Returns the new
state, the destination contents, and the count read. -/
def RingBuf.readinto (st : RingBuf) (dest : List Nat) : RingBuf × List Nat × Nat :=
  let pr := st.b.take st.n
  let toR := min pr.length dest.length
  if toR = 0 then (st, dest, 0)
  else (st.finishRead toR, writeAt dest 0 (pr.take toR), toR)

/-- C7: starting from an empty buffer of capacity `cap`, writing `data` with
`len(data) <= cap` returns `len(data)`, and an immediately following
`readinto` into a destination at least as long returns `len(data)` and places
exactly the bytes of `data`, in order, at the start of the destination. -/
theorem buffer_write_read_roundtrip (cap : Nat) (data dest : List Nat)
    (hcap : data.length ≤ cap) (hdest : data.length ≤ dest.length) :
    ((RingBuf.mkBuf cap).write data).2 = data.length ∧
    (((RingBuf.mkBuf cap).write data).1.readinto dest).2.2 = data.length ∧
    (((RingBuf.mkBuf cap).write data).1.readinto dest).2.1.take data.length = data := by
  by_cases hd : data.length = 0
  · have hnil : data = [] := List.length_eq_zero.mp hd
    subst hnil
    simp [RingBuf.write, RingBuf.mkBuf, RingBuf.readinto]
  · have hW : (RingBuf.mkBuf cap).write data =
        (⟨data ++ List.replicate (cap - data.length) 0, data.length, cap⟩, data.length) := by
      unfold RingBuf.write RingBuf.mkBuf
      simp only [List.length_replicate, Nat.sub_zero]
      rw [Nat.min_eq_left hcap]
      simp only [hd, if_false]
      rw [List.take_length]
      have hwa : writeAt (List.replicate cap 0) 0 data =
          data ++ List.replicate (cap - data.length) 0 := by
        simp [writeAt, List.drop_replicate]
      simp only [hwa]
      unfold RingBuf.finishWrite
      simp only [if_pos rfl]
      have hblen : (data ++ List.replicate (cap - data.length) (0:Nat)).length = cap := by
        simp; omega
      simp [hblen]
    rw [hW]
    refine ⟨rfl, ?_, ?_⟩
    · unfold RingBuf.readinto
      simp only
      rw [List.take_left, Nat.min_eq_left hdest]
      simp [hd]
    · unfold RingBuf.readinto
      simp only
      rw [List.take_left, Nat.min_eq_left hdest]
      simp only [hd, if_false]
      rw [List.take_length]
      simp [writeAt, List.take_left]

/-- Witness for C7: capacity 4, three bytes written, destination of length 3. -/
theorem buffer_write_read_roundtrip_witness :
    [1, 2, 3].length ≤ 4 ∧ [1, 2, 3].length ≤ [0, 0, 0].length ∧
    (((RingBuf.mkBuf 4).write [1, 2, 3]).1.readinto [0, 0, 0]).2.1.take
      [1, 2, 3].length = [1, 2, 3] :=
  ⟨by decide, by decide,
   (buffer_write_read_roundtrip 4 [1, 2, 3] [0, 0, 0] (by decide) (by decide)).2.2⟩

/-! ## Device manager state (src/usbd/device.py, class _USBDevice)

`_itfs`, `_eps` and `_ep_cbs` are Python dicts (insertion-ordered), embedded
as association lists; interface objects are identified by numeric ids. -/

/-- One `_ep_cbs` entry: Python `None` (no transfer pending), `True` (pending
with no completion callback) or a callable completion callback. -/
inductive EpCb where
  | noCb
  | trueCb
  | someCb (f : Nat)
deriving Repr, DecidableEq

/-- Python truthiness of an `_ep_cbs` value (`None` is falsy, `True` and any
callable are truthy). -/
def EpCb.pyTruthy : EpCb → Bool
  | .noCb => false
  | _ => true

/-- Python `callable(cb)`: only an actual function is callable. -/
def EpCb.callable : EpCb → Bool
  | .someCb _ => true
  | _ => false

/-- Lookup in an insertion-ordered dict. -/
def lookupA {α : Type} (m : List (Nat × α)) (k : Nat) : Option α :=
  (m.find? (fun p => p.1 == k)).map Prod.snd

/-- Dict assignment `m[k] = v`: replaces in place, or appends a new key. -/
def updateA {α : Type} : List (Nat × α) → Nat → α → List (Nat × α)
  | [], k, v => [(k, v)]
  | p :: rest, k, v => if p.1 = k then (k, v) :: rest else p :: updateA rest k v

/-- Mutable attributes of the `_USBDevice` singleton: `_itfs` (interface
number to interface object), `_eps` (endpoint address to interface object) and
`_ep_cbs` (endpoint address to pending-transfer entry). -/
structure DevState where
  itfs : List (Nat × Nat)
  eps : List (Nat × Nat)
  epCbs : List (Nat × EpCb)
deriving Repr, DecidableEq

/-- Errors raised by `_USBDevice._submit_xfer`. -/
inductive SubmitErr where
  | valueError
  | keyError
  | xferPending
deriving Repr, DecidableEq

/-- The stored pending entry `done_cb or True`. -/
def cbOrTrue : Option Nat → EpCb
  | some f => .someCb f
  | none => .trueCb

/-- `_USBDevice._submit_xfer(ep_addr, data, done_cb)`: raises `ValueError` if
`ep_addr` is not in `_eps`, raises `RuntimeError("xfer_pending")` if the
`_ep_cbs` entry is truthy, else stores `done_cb or True` before handing the
transfer to the low-level driver.  Returns the post state and the raised
error, if any (no state was mutated before either raise). -/
def submitXfer (st : DevState) (ep : Nat) (doneCb : Option Nat) :
    DevState × Option SubmitErr :=
  match lookupA st.eps ep with
  | none => (st, some .valueError)
  | some _ =>
    match lookupA st.epCbs ep with
    | none => (st, some .keyError)
    | some e =>
      if e.pyTruthy then (st, some .xferPending)
      else
        ({ st with epCbs := updateA st.epCbs ep (cbOrTrue doneCb) }, none)

/-- `USBInterface.xfer_pending(ep_addr)`: truthiness of `_dev._ep_cbs[ep_addr]`
(`none` models the `KeyError` on a missing key). -/
def xferPendingM (st : DevState) (ep : Nat) : Option Bool :=
  (lookupA st.epCbs ep).map EpCb.pyTruthy

/-- `_USBDevice._xfer_cb(ep_addr, result, xferred_bytes)`: fetch the entry
with `.get(ep_addr, None)`, overwrite it with `None`, then invoke it if it is
callable.  The second component records the invoked callback together with
the device state visible to it at the moment it runs. -/
def xferCb (st : DevState) (ep : Nat) : DevState × Option (Nat × DevState) :=
  let cb := (lookupA st.epCbs ep).getD .noCb
  let st' : DevState := { st with epCbs := updateA st.epCbs ep .noCb }
  (st', match cb with | .someCb f => some (f, st') | _ => none)

/-- `_USBDevice._reset_cb()`: set every `_ep_cbs` entry to `None`, then call
`handle_reset()` on every value of `_itfs` in insertion order.  The second
component records each `handle_reset` invocation (interface object id) with
the device state visible to it. -/
def resetCb (st : DevState) : DevState × List (Nat × DevState) :=
  let st' : DevState := { st with epCbs := st.epCbs.map (fun p => (p.1, EpCb.noCb)) }
  (st', st.itfs.map (fun p => (p.2, st')))

/-! ### Association-list lemmas -/

theorem lookupA_cons {α : Type} (p : Nat × α) (rest : List (Nat × α)) (k : Nat) :
    lookupA (p :: rest) k = if p.1 = k then some p.2 else lookupA rest k := by
  by_cases h : p.1 = k <;> simp [lookupA, List.find?_cons, h]

theorem lookupA_updateA_self {α : Type} (m : List (Nat × α)) (k : Nat) (v : α) :
    lookupA (updateA m k v) k = some v := by
  induction m with
  | nil => simp [updateA, lookupA, List.find?_cons]
  | cons p rest ih =>
    by_cases h : p.1 = k
    · simp [updateA, h, lookupA_cons]
    · simp [updateA, h, lookupA_cons, ih]

theorem lookupA_updateA_other {α : Type} (m : List (Nat × α)) (k k' : Nat) (v : α)
    (h : k' ≠ k) : lookupA (updateA m k v) k' = lookupA m k' := by
  induction m with
  | nil =>
    show lookupA [(k, v)] k' = lookupA [] k'
    rw [lookupA_cons, if_neg (fun hh => h hh.symm)]
  | cons p rest ih =>
    by_cases hp : p.1 = k
    · subst hp
      rw [show updateA (p :: rest) p.1 v = (p.1, v) :: rest by simp [updateA]]
      rw [lookupA_cons, lookupA_cons, if_neg (fun hh => h hh.symm),
        if_neg (fun hh => h hh.symm)]
    · simp only [updateA, if_neg hp, lookupA_cons, ih]

theorem lookupA_map_const {α β : Type} (m : List (Nat × α)) (k : Nat) (c : β) :
    lookupA (m.map (fun p => (p.1, c))) k = (lookupA m k).map (fun _ => c) := by
  induction m with
  | nil => rfl
  | cons p rest ih =>
    by_cases h : p.1 = k <;> simp [lookupA_cons, h, ih]

/-! ### Claims about the pending-transfer table -/

/-- C2: if the `_ep_cbs` entry for `ep` is already set (truthy), then
`_submit_xfer` fails with a raised error, reporting instead of queueing, and
the device state — in particular every pending-transfer entry — is unchanged. -/
theorem submit_xfer_pending_error (st : DevState) (ep : Nat) (doneCb : Option Nat)
    (e : EpCb) (hlook : lookupA st.epCbs ep = some e) (htr : e.pyTruthy = true) :
    (submitXfer st ep doneCb).1 = st ∧ (submitXfer st ep doneCb).2.isSome := by
  unfold submitXfer
  cases heps : lookupA st.eps ep with
  | none => exact ⟨rfl, rfl⟩
  | some v => rw [hlook]; simp [htr]

/-- Witness for C2: endpoint 129 has a pending entry (`True` sentinel); the
submit leaves the state unchanged. -/
theorem submit_xfer_pending_error_witness :
    lookupA (DevState.mk [(0, 1)] [(129, 1)] [(129, EpCb.trueCb)]).epCbs 129 =
      some EpCb.trueCb ∧
    EpCb.trueCb.pyTruthy = true ∧
    (submitXfer ⟨[(0, 1)], [(129, 1)], [(129, EpCb.trueCb)]⟩ 129 (some 5)).1 =
      ⟨[(0, 1)], [(129, 1)], [(129, EpCb.trueCb)]⟩ :=
  ⟨by decide, by decide,
   (submit_xfer_pending_error ⟨[(0, 1)], [(129, 1)], [(129, EpCb.trueCb)]⟩ 129
     (some 5) EpCb.trueCb (by decide) (by decide)).1⟩

/-- C10: when `_xfer_cb` invokes a stored completion callback, the
pending-transfer entry for that endpoint has already been cleared: in the
state the callback observes, `xfer_pending` is false and a nested submit on
the same endpoint does not fail with the transfer-pending error. -/
theorem xfer_cb_clears_before_callback (st : DevState) (ep : Nat) (f : Nat)
    (stAt : DevState) (h : (xferCb st ep).2 = some (f, stAt)) :
    xferPendingM stAt ep = some false ∧
    ∀ doneCb : Option Nat, (submitXfer stAt ep doneCb).2 ≠ some SubmitErr.xferPending := by
  have hst : stAt = { st with epCbs := updateA st.epCbs ep EpCb.noCb } := by
    unfold xferCb at h
    cases hcb : (lookupA st.epCbs ep).getD EpCb.noCb with
    | noCb => rw [hcb] at h; simp at h
    | trueCb => rw [hcb] at h; simp at h
    | someCb g => rw [hcb] at h; simp at h; exact h.2.symm
  subst hst
  have hlk : lookupA (updateA st.epCbs ep EpCb.noCb) ep = some EpCb.noCb :=
    lookupA_updateA_self st.epCbs ep EpCb.noCb
  constructor
  · simp [xferPendingM, hlk, EpCb.pyTruthy]
  · intro doneCb
    unfold submitXfer
    cases heps : lookupA ({ st with epCbs := updateA st.epCbs ep EpCb.noCb} : DevState).eps ep with
    | none => simp
    | some v => simp [hlk, EpCb.pyTruthy]

/-- Witness for C10: completing a transfer with a stored callback on endpoint
129 invokes it with the entry already cleared. -/
theorem xfer_cb_clears_before_callback_witness :
    (xferCb ⟨[(0, 1)], [(129, 1)], [(129, EpCb.someCb 7)]⟩ 129).2 =
      some (7, ⟨[(0, 1)], [(129, 1)], [(129, EpCb.noCb)]⟩) ∧
    xferPendingM ⟨[(0, 1)], [(129, 1)], [(129, EpCb.noCb)]⟩ 129 = some false :=
  ⟨by decide,
   (xfer_cb_clears_before_callback ⟨[(0, 1)], [(129, 1)], [(129, EpCb.someCb 7)]⟩
     129 7 ⟨[(0, 1)], [(129, 1)], [(129, EpCb.noCb)]⟩ (by decide)).1⟩

/-! ### Claims about the bus-reset callback -/

/-- Concrete device state used to refute C4 and C5: one interface object
(id 5) registered under two USB interface numbers (0 and 1), and endpoint 129
with an outstanding transfer whose completion callback is 3. -/
def resetCexSt : DevState :=
  ⟨[(0, 5), (1, 5)], [(129, 5)], [(129, EpCb.someCb 3)]⟩

/-- Counterexample to C4: for an interface object occupying two USB interface
numbers, one bus reset invokes its `handle_reset` hook twice (once per entry
of `_itfs`), not exactly once. -/
theorem reset_cb_double_call_cex :
    (((resetCb resetCexSt).2.map Prod.fst).count 5) = 2 ∧
    ¬ (((resetCb resetCexSt).2.map Prod.fst).count 5) = 1 := by decide

/-- C4 (amended): a bus reset sets every pending-transfer entry to the
no-transfer state, and calls `handle_reset` exactly once per registered USB
interface number, in registration order — so an object occupying k interface
numbers receives k calls, and an object occupying one number exactly one. -/
theorem reset_cb_clears_and_calls_per_itf_num (st : DevState) :
    (∀ ep : Nat, (lookupA (resetCb st).1.epCbs ep).getD EpCb.noCb = EpCb.noCb) ∧
    (resetCb st).2.map Prod.fst = st.itfs.map Prod.snd := by
  constructor
  · intro ep
    show (lookupA (st.epCbs.map (fun p => (p.1, EpCb.noCb))) ep).getD EpCb.noCb = EpCb.noCb
    rw [lookupA_map_const]
    cases lookupA st.epCbs ep <;> rfl
  · show (st.itfs.map (fun p => (p.2, _))).map Prod.fst = st.itfs.map Prod.snd
    simp

/-- Counterexample to C5: at the moment each `handle_reset` hook runs, the
pending-transfer entry for endpoint 129 has already been overwritten with the
no-transfer state, not the entry (completion callback 3) that was outstanding
when the reset occurred. -/
theorem reset_order_cex :
    lookupA resetCexSt.epCbs 129 = some (EpCb.someCb 3) ∧
    (resetCb resetCexSt).2.map (fun ev => lookupA ev.2.epCbs 129) =
      [some EpCb.noCb, some EpCb.noCb] ∧
    some EpCb.noCb ≠ some (EpCb.someCb 3) := by decide

/-- C5 (amended): on every bus reset each `handle_reset` hook is invoked
after the pending-transfer entries are cleared: in the state any hook
observes, every pending-transfer entry is the no-transfer state. -/
theorem reset_hooks_after_clear (st : DevState) (ev : Nat × DevState)
    (hev : ev ∈ (resetCb st).2) (ep : Nat) :
    (lookupA ev.2.epCbs ep).getD EpCb.noCb = EpCb.noCb := by
  have hmem : ev ∈ st.itfs.map
      (fun p => (p.2, ({ st with epCbs := st.epCbs.map (fun q => (q.1, EpCb.noCb)) } : DevState))) := hev
  rw [List.mem_map] at hmem
  obtain ⟨q, _, hq⟩ := hmem
  rw [← hq]
  show (lookupA (st.epCbs.map (fun q => (q.1, EpCb.noCb))) ep).getD EpCb.noCb = EpCb.noCb
  rw [lookupA_map_const]
  cases lookupA st.epCbs ep <;> rfl

/-- Witness for C5 (amended) at the concrete reset state: the first recorded
hook invocation observes a cleared entry for endpoint 129. -/
theorem reset_hooks_after_clear_witness :
    (5, DevState.mk [(0, 5), (1, 5)] [(129, 5)] [(129, EpCb.noCb)]) ∈ (resetCb resetCexSt).2 ∧
    (lookupA (DevState.mk [(0, 5), (1, 5)] [(129, 5)] [(129, EpCb.noCb)]).epCbs 129).getD
      EpCb.noCb = EpCb.noCb :=
  ⟨by decide,
   reset_hooks_after_clear resetCexSt
     (5, DevState.mk [(0, 5), (1, 5)] [(129, 5)] [(129, EpCb.noCb)]) (by decide) 129⟩

/-! ## Configuration-applied callback (src/usbd/device.py, _open_itf_cb)

`_open_itf_cb(desc)` receives a slice of the configuration descriptor (one
interface or one interface-association group per call, per the code's own
contract).  The slice is modelled as the list of its sub-descriptors, each a
byte list whose index 1 is bDescriptorType and whose index 2 is the
interface number (type 4) or endpoint address (type 5) — exactly the bytes
`desc[offs + 1]` and `desc[offs + 2]` the scan loop reads while stepping
`offs` by each descriptor's bLength. -/

/-- The `max_itf` accumulator of the scan loop: every interface descriptor
(type 4) contributes its interface number. -/
def scanMax (cur : Nat) : List (List Nat) → Nat
  | [] => cur
  | d :: rest => scanMax (if d.getD 1 0 = 4 then max cur (d.getD 2 0) else cur) rest

/-- The `_eps` table built by the scan loop: every endpoint descriptor
(type 5) maps its endpoint address to the interface object. -/
def scanEps (itfId : Nat) (acc : List (Nat × Nat)) : List (List Nat) → List (Nat × Nat)
  | [] => acc
  | d :: rest =>
    scanEps itfId (if d.getD 1 0 = 5 then updateA acc (d.getD 2 0) itfId else acc) rest

/-- The `_ep_cbs` table built by the scan loop (every entry `None`). -/
def scanCbs (acc : List (Nat × EpCb)) : List (List Nat) → List (Nat × EpCb)
  | [] => acc
  | d :: rest =>
    scanCbs (if d.getD 1 0 = 5 then updateA acc (d.getD 2 0) EpCb.noCb else acc) rest

/-- `_USBDevice._open_itf_cb(desc)`: read the first interface number from
byte 2 of the slice, look up the owning interface object (`none` models the
`KeyError` on an unregistered number), replace `_eps`/`_ep_cbs` wholesale
with the tables built from the scan of this slice, and call `handle_open()`
unless the next interface number belongs to the same object.  The second
component records each `handle_open` invocation (interface object id) with
the device state visible to it. -/
def openedState (st : DevState) (itfId : Nat) (desc : List (List Nat)) : DevState :=
  { st with eps := scanEps itfId [] desc, epCbs := scanCbs [] desc }

def openItfCb (st : DevState) (desc : List (List Nat)) :
    Option (DevState × List (Nat × DevState)) :=
  match lookupA st.itfs ((desc.headD []).getD 2 0) with
  | none => none
  | some itfId =>
    if lookupA st.itfs (scanMax ((desc.headD []).getD 2 0) desc + 1) = some itfId then
      some (openedState st itfId desc, [])
    else
      some (openedState st itfId desc, [(itfId, openedState st itfId desc)])

/-- One host configuration application: the low-level driver fires
`_open_itf_cb` once per interface group, in configuration order.  Events of
all calls are concatenated in order. -/
def applyConfig (st : DevState) (groups : List (List (List Nat))) :
    Option (DevState × List (Nat × DevState)) :=
  match groups with
  | [] => some (st, [])
  | g :: rest =>
    match openItfCb st g with
    | none => none
    | some (st', evs) =>
      match applyConfig st' rest with
      | none => none
      | some (st'', evs') => some (st'', evs ++ evs')

/-! ### Scan lemmas -/

theorem scanEps_cons (itfId : Nat) (acc : List (Nat × Nat)) (d : List Nat)
    (rest : List (List Nat)) :
    scanEps itfId acc (d :: rest) =
      scanEps itfId (if d.getD 1 0 = 5 then updateA acc (d.getD 2 0) itfId else acc) rest :=
  rfl

theorem scanMax_cons (cur : Nat) (d : List Nat) (rest : List (List Nat)) :
    scanMax cur (d :: rest) =
      scanMax (if d.getD 1 0 = 4 then max cur (d.getD 2 0) else cur) rest :=
  rfl

theorem scanEps_lookup (itfId : Nat) (desc : List (List Nat)) :
    ∀ (acc : List (Nat × Nat)) (k : Nat),
      lookupA (scanEps itfId acc desc) k = lookupA acc k ∨
      lookupA (scanEps itfId acc desc) k = some itfId := by
  induction desc with
  | nil => intro acc k; exact Or.inl rfl
  | cons d rest ih =>
    intro acc k
    by_cases h5 : d.getD 1 0 = 5
    · rw [scanEps_cons, if_pos h5]
      by_cases hk : d.getD 2 0 = k
      · rcases ih (updateA acc (d.getD 2 0) itfId) k with h | h
        · right; rw [h, hk, lookupA_updateA_self]
        · exact Or.inr h
      · rcases ih (updateA acc (d.getD 2 0) itfId) k with h | h
        · left
          rw [h, lookupA_updateA_other acc (d.getD 2 0) k itfId (fun hh => hk hh.symm)]
        · exact Or.inr h
    · rw [scanEps_cons, if_neg h5]
      exact ih acc k

theorem scanEps_owns (itfId : Nat) (desc : List (List Nat)) :
    ∀ (acc : List (Nat × Nat)) (d : List Nat), d ∈ desc → d.getD 1 0 = 5 →
      lookupA (scanEps itfId acc desc) (d.getD 2 0) = some itfId := by
  induction desc with
  | nil => intro acc d hd; cases hd
  | cons d' rest ih =>
    intro acc d hd h5
    rcases List.mem_cons.mp hd with he | hm
    · subst he
      rw [scanEps_cons, if_pos h5]
      rcases scanEps_lookup itfId rest (updateA acc (d.getD 2 0) itfId) (d.getD 2 0)
        with h | h
      · rw [h, lookupA_updateA_self]
      · exact h
    · by_cases h5' : d'.getD 1 0 = 5
      · rw [scanEps_cons, if_pos h5']
        exact ih _ d hm h5
      · rw [scanEps_cons, if_neg h5']
        exact ih acc d hm h5

theorem scanMax_skip (l : List (List Nat)) :
    ∀ cur : Nat, (∀ d ∈ l, d.getD 1 0 ≠ 4) → scanMax cur l = cur := by
  induction l with
  | nil => intro cur _; rfl
  | cons d rest ih =>
    intro cur hl
    rw [scanMax_cons, if_neg (hl d (List.mem_cons_self d rest))]
    exact ih cur (fun d' hd' => hl d' (List.mem_cons_of_mem d hd'))

theorem interfaceBytes_getD1 (a b c d e f : Nat) :
    (interfaceBytes a b c d e f).getD 1 0 = 4 := by
  simp [interfaceBytes, packB]

theorem interfaceBytes_getD2 (a b c d e f : Nat) :
    (interfaceBytes a b c d e f).getD 2 0 = a % 256 := by
  simp [interfaceBytes, packB]

theorem endpointBytes_getD1 (a : Nat) (at' : EpAttr) (m i : Nat) :
    (endpointBytes a at' m i).getD 1 0 = 5 := by
  simp [endpointBytes, packB, packLE16]

theorem endpointBytes_getD2 (a : Nat) (at' : EpAttr) (m i : Nat) :
    (endpointBytes a at' m i).getD 2 0 = a % 256 := by
  simp [endpointBytes, packB, packLE16]

/-! ### Claims about the configuration-applied callback -/

/-- Concrete state used to refute C3: interface object 10 registered at USB
interface number 0 (owning endpoint 129) and object 11 at number 1 (owning
endpoint 130), as two separate interface groups. -/
def openCexSt : DevState := ⟨[(0, 10), (1, 11)], [], []⟩

/-- The configuration-descriptor slice of the first group: interface 0 with
one interrupt endpoint at address 129. -/
def openCexG0 : List (List Nat) :=
  [interfaceBytes 0 1 255 0 0 0, endpointBytes 129 EpAttr.interruptK 8 8]

/-- The configuration-descriptor slice of the second group: interface 1 with
one interrupt endpoint at address 130. -/
def openCexG1 : List (List Nat) :=
  [interfaceBytes 1 1 255 0 0 0, endpointBytes 130 EpAttr.interruptK 8 8]

/-- Counterexample to C3: applying a configuration with two interface groups
fires two `handle_open` callbacks, and at each one the endpoint table only
holds the endpoints of the group being opened, because `_open_itf_cb` clears
`_eps` at the start of every call.  At the first `handle_open` (object 10),
endpoint 130 — owned by registered interface object 11 of the same applied
configuration — is not mapped at all; at the second, endpoint 129 (owned by
object 10) has been wiped. -/
theorem open_itf_partial_table_cex :
    (applyConfig openCexSt [openCexG0, openCexG1]).map
        (fun r => r.2.map (fun ev => (ev.1, lookupA ev.2.eps 129, lookupA ev.2.eps 130))) =
      some [(10, some 10, none), (11, none, some 11)] ∧
    (none : Option Nat) ≠ some 11 := by decide

/-- C3 (amended): within each configuration callback, the endpoint table is
rebuilt from the complete scan of that callback's descriptor slice before any
`handle_open` fires: every `handle_open` invoked by the callback observes the
final table of the full slice scan (never a partially scanned one), in which
every endpoint descriptor of the slice maps to the interface object being
opened.  (Endpoints of other interface groups are absent, since the tables
are cleared at the start of each callback.) -/
theorem open_itf_full_scan_before_open (st : DevState) (desc : List (List Nat))
    (st' : DevState) (events : List (Nat × DevState))
    (h : openItfCb st desc = some (st', events))
    (ev : Nat × DevState) (hev : ev ∈ events)
    (d : List Nat) (hd : d ∈ desc) (hdt : d.getD 1 0 = 5) :
    ev.2 = st' ∧ lookupA ev.2.eps (d.getD 2 0) = some ev.1 := by
  unfold openItfCb at h
  split at h
  · exact absurd h (by simp)
  · rename_i itfId hit
    split at h
    · simp only [Option.some.injEq, Prod.mk.injEq] at h
      rw [← h.2] at hev
      cases hev
    · simp only [Option.some.injEq, Prod.mk.injEq] at h
      obtain ⟨hst, hevs⟩ := h
      rw [← hevs] at hev
      rw [List.mem_singleton] at hev
      subst hev
      exact ⟨hst, scanEps_owns itfId desc [] d hd hdt⟩

/-- The device state after the first counterexample group opens: only that
group's endpoint is in the tables. -/
def openCexStW : DevState := ⟨[(0, 10), (1, 11)], [(129, 10)], [(129, EpCb.noCb)]⟩

/-- Witness for C3 (amended) at the first counterexample group. -/
theorem open_itf_full_scan_before_open_witness :
    openItfCb openCexSt openCexG0 = some (openCexStW, [(10, openCexStW)]) ∧
    lookupA openCexStW.eps ((endpointBytes 129 EpAttr.interruptK 8 8).getD 2 0) =
      some 10 :=
  ⟨by decide,
   (open_itf_full_scan_before_open openCexSt openCexG0 openCexStW
     [(10, openCexStW)] (by decide) (10, openCexStW) (by decide)
     (endpointBytes 129 EpAttr.interruptK 8 8) (by decide) (by decide)).2⟩

theorem openItfCb_eq (st : DevState) (desc : List (List Nat)) (itfId : Nat)
    (hit : lookupA st.itfs ((desc.headD []).getD 2 0) = some itfId) :
    openItfCb st desc =
      if lookupA st.itfs (scanMax ((desc.headD []).getD 2 0) desc + 1) = some itfId then
        some (openedState st itfId desc, [])
      else
        some (openedState st itfId desc, [(itfId, openedState st itfId desc)]) := by
  unfold openItfCb
  rw [hit]

/-- C6: for a composite interface object `x` registered under the two
consecutive USB interface numbers `n` and `n + 1` (and not under `n + 2`),
one application of a configuration delivering one callback per interface
number invokes the object's `handle_open` exactly once, and the invocation
happens on the callback for the higher interface number: the lower-numbered
callback fires no open event, and the whole application fires exactly one,
for `x`.  (`t1`, `t2` are the groups' trailing sub-descriptors — endpoint or
class-specific descriptors, no interface descriptors among them.) -/
theorem composite_open_once_highest (st : DevState) (n x : Nat)
    (t1 t2 : List (List Nat))
    (hn : n + 1 < 256)
    (ht1 : ∀ d ∈ t1, d.getD 1 0 ≠ 4)
    (ht2 : ∀ d ∈ t2, d.getD 1 0 ≠ 4)
    (hx0 : lookupA st.itfs n = some x)
    (hx1 : lookupA st.itfs (n + 1) = some x)
    (hx2 : lookupA st.itfs (n + 2) ≠ some x) :
    (openItfCb st (interfaceBytes n 1 255 0 0 0 :: t1)).map
        (fun r => r.2.map Prod.fst) = some [] ∧
    (applyConfig st [interfaceBytes n 1 255 0 0 0 :: t1,
        interfaceBytes (n + 1) 1 255 0 0 0 :: t2]).map
        (fun r => r.2.map Prod.fst) = some [x] := by
  have hmod : n % 256 = n := Nat.mod_eq_of_lt (by omega)
  have hmod1 : (n + 1) % 256 = n + 1 := Nat.mod_eq_of_lt hn
  have hhead1 : (((interfaceBytes n 1 255 0 0 0 :: t1).headD []).getD 2 0) = n := by
    show (interfaceBytes n 1 255 0 0 0).getD 2 0 = n
    rw [interfaceBytes_getD2]; exact hmod
  have hit1 : lookupA st.itfs
      (((interfaceBytes n 1 255 0 0 0 :: t1).headD []).getD 2 0) = some x := by
    rw [hhead1]; exact hx0
  have hc1 : scanMax (((interfaceBytes n 1 255 0 0 0 :: t1).headD []).getD 2 0)
      (interfaceBytes n 1 255 0 0 0 :: t1) = n := by
    rw [hhead1, scanMax_cons, if_pos (interfaceBytes_getD1 n 1 255 0 0 0),
      interfaceBytes_getD2, hmod, Nat.max_self]
    exact scanMax_skip t1 n ht1
  have h1 : openItfCb st (interfaceBytes n 1 255 0 0 0 :: t1) =
      some (openedState st x (interfaceBytes n 1 255 0 0 0 :: t1), []) := by
    rw [openItfCb_eq st _ x hit1, hc1, if_pos hx1]
  have hitfs1 : (openedState st x (interfaceBytes n 1 255 0 0 0 :: t1)).itfs = st.itfs := rfl
  have hhead2 : (((interfaceBytes (n + 1) 1 255 0 0 0 :: t2).headD []).getD 2 0) = n + 1 := by
    show (interfaceBytes (n + 1) 1 255 0 0 0).getD 2 0 = n + 1
    rw [interfaceBytes_getD2]; exact hmod1
  have hit2 : lookupA (openedState st x (interfaceBytes n 1 255 0 0 0 :: t1)).itfs
      (((interfaceBytes (n + 1) 1 255 0 0 0 :: t2).headD []).getD 2 0) = some x := by
    rw [hitfs1, hhead2]; exact hx1
  have hc2 : scanMax (((interfaceBytes (n + 1) 1 255 0 0 0 :: t2).headD []).getD 2 0)
      (interfaceBytes (n + 1) 1 255 0 0 0 :: t2) = n + 1 := by
    rw [hhead2, scanMax_cons, if_pos (interfaceBytes_getD1 (n + 1) 1 255 0 0 0),
      interfaceBytes_getD2, hmod1, Nat.max_self]
    exact scanMax_skip t2 (n + 1) ht2
  have h2 : openItfCb (openedState st x (interfaceBytes n 1 255 0 0 0 :: t1))
      (interfaceBytes (n + 1) 1 255 0 0 0 :: t2) =
      some (openedState (openedState st x (interfaceBytes n 1 255 0 0 0 :: t1)) x
          (interfaceBytes (n + 1) 1 255 0 0 0 :: t2),
        [(x, openedState (openedState st x (interfaceBytes n 1 255 0 0 0 :: t1)) x
          (interfaceBytes (n + 1) 1 255 0 0 0 :: t2))]) := by
    rw [openItfCb_eq _ _ x hit2, hc2]
    rw [if_neg (by rw [hitfs1]; exact hx2)]
  refine ⟨by rw [h1]; rfl, ?_⟩
  simp only [applyConfig, h1, h2]
  simp

/-- Witness for C6: object 5 spans interface numbers 0 and 1, with one
endpoint descriptor in each group. -/
theorem composite_open_once_highest_witness :
    (lookupA (DevState.mk [(0, 5), (1, 5)] [] []).itfs 0 = some 5) ∧
    (lookupA (DevState.mk [(0, 5), (1, 5)] [] []).itfs 2 ≠ some 5) ∧
    (applyConfig ⟨[(0, 5), (1, 5)], [], []⟩
        [interfaceBytes 0 1 255 0 0 0 :: [endpointBytes 129 EpAttr.interruptK 8 8],
         interfaceBytes 1 1 255 0 0 0 :: [endpointBytes 130 EpAttr.interruptK 8 8]]).map
        (fun r => r.2.map Prod.fst) = some [5] :=
  ⟨by decide, by decide,
   (composite_open_once_highest ⟨[(0, 5), (1, 5)], [], []⟩ 0 5
     [endpointBytes 129 EpAttr.interruptK 8 8] [endpointBytes 130 EpAttr.interruptK 8 8]
     (by decide) (by decide) (by decide) (by decide) (by decide) (by decide)).2⟩

/-! ## HID interface (src/usbd/hid.py, class HIDInterface)

`get_hid_descriptor()` (no argument) allocates `Descriptor(bytearray(l))`
with `l = 9 + 3 * len(extra_descriptors)`, packs the 9-byte HID descriptor
header (format `"<BBHBBBH"`) followed by one `"<BH"` (type, length) pair per
extra descriptor, and returns the buffer.  Extra descriptors are (type,
data-blob) pairs. -/

/-- The 9 bytes of the HID descriptor header, format `"<BBHBBBH"` with values
`(l, 0x21, 0x111, 0, len(extra) + 1, 0x22, len(report_descriptor))`. -/
def hidHeaderBytes (l nExtra reportLen : Nat) : List Nat :=
  packB l ++ packB 0x21 ++ packLE16 0x111 ++ packB 0 ++ packB (nExtra + 1) ++
    packB 0x22 ++ packLE16 reportLen

/-- `HIDInterface.get_hid_descriptor()` with no descriptor argument: the
returned buffer (the backing bytearray of the freshly allocated
`Descriptor`). -/
def getHidDescriptor (reportDescriptor : List Nat)
    (extraDescriptors : List (Nat × List Nat)) : List Nat :=
  let l := 9 + 3 * extraDescriptors.length
  let ops := Op.packOp (hidHeaderBytes l extraDescriptors.length reportDescriptor.length) ::
    extraDescriptors.map (fun e => Op.packOp (packB e.1 ++ packLE16 e.2.length))
  ((Descr.run ⟨some (List.replicate l 0), 0⟩ ops).b.getD [])

/-- Counterexample to C8: for a 52-byte report descriptor and two extra
descriptor entries, `get_hid_descriptor()` does return 15 bytes, but the byte
at index 4 is the country code 0, not the number of descriptors; the count 3
sits at index 5 (format `"<BBHBBBH"`: bytes 2-3 are bcdHID, byte 4 is
bCountryCode, byte 5 is bNumDescriptors). -/
theorem hid_descriptor_byte4_cex :
    (getHidDescriptor (List.replicate 52 0) [(0x23, [1, 2, 3, 4]), (0x23, [5, 6])]).length
      = 15 ∧
    (getHidDescriptor (List.replicate 52 0)
      [(0x23, [1, 2, 3, 4]), (0x23, [5, 6])]).getD 4 0 = 0 ∧
    ¬ (getHidDescriptor (List.replicate 52 0)
      [(0x23, [1, 2, 3, 4]), (0x23, [5, 6])]).getD 4 0 = 3 := by decide

set_option maxHeartbeats 1600000 in
/-- C8 (amended): for a 52-byte report descriptor and any two extra
descriptor entries, `get_hid_descriptor()` returns a buffer of
`9 + 3*2 = 15` bytes whose byte at index 5 (bNumDescriptors) is the number
of descriptors, 3; byte 4 is the country code 0 and bytes 7-8 hold the
report descriptor length 52. -/
theorem hid_descriptor_len_and_count (rep : List Nat) (e1 e2 : Nat × List Nat)
    (hrep : rep.length = 52) :
    (getHidDescriptor rep [e1, e2]).length = 15 ∧
    (getHidDescriptor rep [e1, e2]).getD 5 0 = 3 ∧
    (getHidDescriptor rep [e1, e2]).getD 4 0 = 0 ∧
    (getHidDescriptor rep [e1, e2]).getD 7 0 = 52 := by
  refine ⟨rfl, rfl, rfl, ?_⟩
  have h7 : (getHidDescriptor rep [e1, e2]).getD 7 0 = rep.length % 256 := rfl
  rw [h7, hrep]

/-- Witness for C8 (amended) at a concrete 52-byte report descriptor and two
concrete extra descriptor entries. -/
theorem hid_descriptor_len_and_count_witness :
    (List.replicate 52 0).length = 52 ∧
    (getHidDescriptor (List.replicate 52 0)
      [(0x23, [1, 2, 3, 4]), (0x23, [5, 6])]).getD 5 0 = 3 :=
  ⟨by decide,
   (hid_descriptor_len_and_count (List.replicate 52 0) (0x23, [1, 2, 3, 4])
     (0x23, [5, 6]) (by decide)).2.1⟩

/-! ## HIDInterface.send_report (src/usbd/hid.py)

The polling loop reads `is_open()`, `xfer_pending(...)` and the deadline
comparison once per iteration; after the loop it re-reads `is_open()`.  These
reads are modelled as an observation list (one `(is_open, xfer_pending,
deadline_expired)` triple per iteration) plus the post-loop `is_open` value.
The function body contains `return False` on the timeout path and on the
not-open path, and no return statement after the final `submit_xfer` call —
so Python returns `None` on the success path. -/

/-- How `send_report` exits. -/
inductive SendRet where
  | retFalse
  | retNoneSubmitted
deriving Repr, DecidableEq

/-- The Python value returned on each exit: explicit `False`, or the implicit
`None` after the trailing `submit_xfer` call. -/
def SendRet.value : SendRet → Option Bool
  | .retFalse => some false
  | .retNoneSubmitted => none

/-- Python truthiness of the returned value (`None` is falsy). -/
def pyTruthyOB : Option Bool → Bool
  | none => false
  | some b => b

/-- The `send_report` control flow over an observation trace (`none` when the
trace is exhausted while the loop still spins). -/
def sendReportLoop (finalOpen : Bool) : List (Bool × Bool × Bool) → Option SendRet
  | [] => none
  | (opn, pend, expired) :: rest =>
    if opn && pend then
      if expired then some .retFalse
      else sendReportLoop finalOpen rest
    else
      if !finalOpen then some .retFalse
      else some .retNoneSubmitted

/-- C9 (code bug): on the success path — interface open, no transfer pending,
so the report is submitted — `send_report` falls off the end and returns
`None`, a falsy value, although its own docstring says it returns `True` if
successful.  The not-open and timeout paths do return `False` as documented. -/
theorem send_report_success_returns_none :
    sendReportLoop true [(true, false, false)] = some SendRet.retNoneSubmitted ∧
    pyTruthyOB SendRet.retNoneSubmitted.value = false ∧
    sendReportLoop false [(false, false, false)] = some SendRet.retFalse ∧
    sendReportLoop true [(true, true, true)] = some SendRet.retFalse ∧
    pyTruthyOB SendRet.retFalse.value = false := by decide
